import Mathlib

/-!
Shallow embedding of the BILDIT AI pixel toolkit (React pixel component,
Next.js server integration) and proofs about its specification claims.

The first part embeds the JavaScript source faithfully: JS scalar values,
insertion-ordered string maps (JS object semantics for the fragments used),
the parameter normalizer, the query-string builder (URLSearchParams
serialization), the surface selector, the bot-signature classifier (JS
regexes embedded as a small regex AST with a derivative matcher), header
lookup, a simplified WHATWG URL model sufficient for the code paths used,
and the server beacon dispatcher.
-/

/-- Scalar JavaScript values that can appear in a params mapping
(string, number, boolean, null, undefined). -/
inductive JSVal where
  | str (s : String)
  | num (n : Int)
  | boolean (b : Bool)
  | nullv
  | undef
deriving DecidableEq

/-- JS String(value) conversion for scalar values. -/
def jsValToString : JSVal → String
  | .str s => s
  | .num n => toString n
  | .boolean b => if b then "true" else "false"
  | .nullv => "null"
  | .undef => "undefined"

/-- Whether a JS value is null or undefined (loose == null). -/
def jsNullish : JSVal → Bool
  | .nullv => true
  | .undef => true
  | _ => false

/-- JS property read on an insertion-ordered string-valued object:
first binding of the key (objects have unique keys; lists model them). -/
def objGet : List (String × String) → String → Option String
  | [], _ => none
  | (k, v) :: rest, key => if k == key then some v else objGet rest key

/-- JS property write: overwrite in place if the key exists, else append. -/
def objSet : List (String × String) → String → String → List (String × String)
  | [], key, val => [(key, val)]
  | (k, v) :: rest, key, val =>
    if k == key then (key, val) :: rest else (k, v) :: objSet rest key val

/-- JS property read on a JSVal-valued object; absent keys read as undefined. -/
def objGetJS : List (String × JSVal) → String → JSVal
  | [], _ => .undef
  | (k, v) :: rest, key => if k == key then v else objGetJS rest key

/-- JS property write on a JSVal-valued object. -/
def objSetJS : List (String × JSVal) → String → JSVal → List (String × JSVal)
  | [], key, val => [(key, val)]
  | (k, v) :: rest, key, val =>
    if k == key then (key, val) :: rest else (k, v) :: objSetJS rest key val

/-- JS truthiness of a string-valued property: present and non-empty. -/
def truthyProp (o : List (String × String)) (k : String) : Bool :=
  match objGet o k with
  | some v => v != ""
  | none => false

/-- JS truthiness of an optional string (undefined and the empty string are falsy). -/
def optTruthy : Option String → Bool
  | some s => s != ""
  | none => false

/-- JS a || b for optional strings. -/
def jsOrStr (a b : Option String) : Option String :=
  if optTruthy a then a else b

/-- Module constant: the default pixel endpoint. -/
def PIXEL_URL : String := "https://ai-pixel.bildit.co/pixel.gif"

/-- Module constant: the default alt text. -/
def DEFAULT_ALT : String := "BILDIT AI Pixel Tracker"

/-- Module constant: the closed set of delivery surfaces. -/
def SURFACE_KEYS : List String := ["img", "iframe", "noscript", "script"]

/-- Module constant: the mode alias map (object literal; own keys only). -/
def MODE_MAP : List (String × List String) :=
  [("auto", SURFACE_KEYS),
   ("server", ["img", "iframe", "noscript", "script"]),
   ("image", ["img"]),
   ("img", ["img"]),
   ("iframe", ["iframe"]),
   ("noscript", ["noscript"]),
   ("script", ["script"])]

/-- Own-property lookup in MODE_MAP (the stored arrays are always truthy). -/
def modeMapLookup (k : String) : Option (List String) :=
  (MODE_MAP.find? (fun kv => kv.1 == k)).map (fun kv => kv.2)

/-- Source function normalizePixelParams: drop null and undefined entries,
stringify every remaining value.  An absent params object yields the empty
mapping. -/
def normalizePixelParams (params : Option (List (String × JSVal))) : List (String × String) :=
  match params with
  | none => []
  | some l =>
    (l.filter (fun kv => !(jsNullish kv.2))).map (fun kv => (kv.1, jsValToString kv.2))

/-- UTF-8 bytes of a character. -/
def utf8Bytes (c : Char) : List UInt8 :=
  let n := c.toNat
  if n < 0x80 then [UInt8.ofNat n]
  else if n < 0x800 then
    [UInt8.ofNat (0xC0 ||| (n >>> 6)), UInt8.ofNat (0x80 ||| (n &&& 0x3F))]
  else if n < 0x10000 then
    [UInt8.ofNat (0xE0 ||| (n >>> 12)), UInt8.ofNat (0x80 ||| ((n >>> 6) &&& 0x3F)),
     UInt8.ofNat (0x80 ||| (n &&& 0x3F))]
  else
    [UInt8.ofNat (0xF0 ||| (n >>> 18)), UInt8.ofNat (0x80 ||| ((n >>> 12) &&& 0x3F)),
     UInt8.ofNat (0x80 ||| ((n >>> 6) &&& 0x3F)), UInt8.ofNat (0x80 ||| (n &&& 0x3F))]

/-- Uppercase hex digit for a value below 16. -/
def hexChar (n : Nat) : Char :=
  if n < 10 then Char.ofNat (48 + n) else Char.ofNat (55 + n)

/-- application/x-www-form-urlencoded serialization of one byte
(URLSearchParams.toString): space becomes a plus sign, bytes in the
unreserved set pass through, everything else is percent-encoded. -/
def formEncodeByte (b : UInt8) : List Char :=
  let n := b.toNat
  if n == 0x20 then ['+']
  else if (0x30 ≤ n ∧ n ≤ 0x39) ∨ (0x41 ≤ n ∧ n ≤ 0x5A) ∨ (0x61 ≤ n ∧ n ≤ 0x7A)
       ∨ n == 0x2A ∨ n == 0x2D ∨ n == 0x2E ∨ n == 0x5F then
    [Char.ofNat n]
  else
    ['%', hexChar (n / 16), hexChar (n % 16)]

/-- form-urlencoded percent-encoding of a string over its UTF-8 bytes. -/
def formEncode (s : String) : String :=
  String.mk (((s.toList.map utf8Bytes).flatten.map formEncodeByte).flatten)

/-- Serialization of one key/value pair. -/
def formEncodePair (kv : String × String) : String :=
  formEncode kv.1 ++ "=" ++ formEncode kv.2

/-- URLSearchParams.toString on a pair list: pairs joined by ampersands. -/
def serializeQueryPairs : List (String × String) → String
  | [] => ""
  | [kv] => formEncodePair kv
  | kv :: rest => formEncodePair kv ++ "&" ++ serializeQueryPairs rest

/-- Source function buildQueryString: append every entry to a
URLSearchParams and serialize it. -/
def buildQueryString (params : List (String × String)) : String :=
  serializeQueryPairs params

/-- JS String.prototype.includes for a single character. -/
def strIncludes (s : String) (c : Char) : Bool :=
  s.toList.contains c

/-- Source function buildPixelSrc: return the base URL unchanged when the
query is empty, otherwise append it after an ampersand when the base
already contains a question mark and after a question mark otherwise. -/
def buildPixelSrc (baseUrl : String) (params : List (String × String)) : String :=
  let query := buildQueryString params
  if query == "" then baseUrl
  else baseUrl ++ (if strIncludes baseUrl '?' then "&" else "?") ++ query

/-- Mode input as the component receives it: undefined, a scalar token, or
an array of string tokens. -/
inductive ModeInput where
  | undef
  | scalar (s : String)
  | list (entries : List String)
deriving DecidableEq

/-- One step of Array.from(new Set(l)): keep first occurrences in order. -/
def jsSetAdd (acc : List String) (x : String) : List String :=
  if acc.contains x then acc else acc ++ [x]

/-- Array.from(new Set(l)): de-duplicate keeping first-occurrence order. -/
def jsSetFrom (l : List String) : List String :=
  l.foldl jsSetAdd []

/-- Source function getModes: resolve a mode selector to the list of
surfaces to activate. -/
def getModes : ModeInput → List String
  | .list entries =>
    let flattened := (entries.map (fun entry =>
      match modeMapLookup entry with
      | some ms => ms
      | none => if SURFACE_KEYS.contains entry then [entry] else [])).flatten
    jsSetFrom (if flattened.isEmpty then SURFACE_KEYS else flattened)
  | .undef => SURFACE_KEYS
  | .scalar s =>
    if s == "" then SURFACE_KEYS
    else
      match modeMapLookup s with
      | some ms => ms
      | none => if SURFACE_KEYS.contains s then [s] else SURFACE_KEYS

/-- Inherited Object.prototype property names visible through property
lookup on an object literal such as MODE_MAP.  Each lookup yields a truthy
value that is not an array: the built-in methods are functions, and the
proto accessor yields the Object.prototype object itself. -/
def OBJECT_PROTOTYPE_KEYS : List String :=
  ["constructor", "hasOwnProperty", "isPrototypeOf", "propertyIsEnumerable",
   "toLocaleString", "toString", "valueOf", "__proto__", "__defineGetter__",
   "__defineSetter__", "__lookupGetter__", "__lookupSetter__"]

/-- The three outcomes of the JS property read MODE_MAP[k]: an own data
property (one of the surface arrays), an inherited Object.prototype member
(truthy, not an array), or missing, which reads as undefined (falsy). -/
inductive ModeMapProp where
  | list (l : List String)
  | inherited
  | missing
deriving DecidableEq

/-- JS property lookup MODE_MAP[k] including the prototype chain: own keys
shadow the prototype; absent own keys fall through to the inherited
Object.prototype members; everything else is undefined. -/
def modeMapProp (k : String) : ModeMapProp :=
  match modeMapLookup k with
  | some ms => .list ms
  | none => if OBJECT_PROTOTYPE_KEYS.contains k then .inherited else .missing

/-- Element of an array produced by the prototype-faithful surface
selector: a string, or an inherited prototype member that flatMap kept
as-is because it is not an array.  Two protoMember values with the same
name model the same inherited object, matching Set identity semantics. -/
inductive SurfaceEntry where
  | str (s : String)
  | protoMember (name : String)
deriving DecidableEq

/-- Result of the prototype-faithful surface selector: an array, or (from
the scalar branch) the bare inherited member returned by MODE_MAP[mode]. -/
inductive GetModesResult where
  | arr (entries : List SurfaceEntry)
  | inheritedMember (name : String)
deriving DecidableEq

/-- One step of Array.from(new Set(l)) over mixed entries. -/
def jsSetAddEntry (acc : List SurfaceEntry) (x : SurfaceEntry) : List SurfaceEntry :=
  if acc.contains x then acc else acc ++ [x]

/-- Array.from(new Set(l)) over mixed entries, keeping first occurrences. -/
def jsSetFromEntries (l : List SurfaceEntry) : List SurfaceEntry :=
  l.foldl jsSetAddEntry []

/-- Source function getModes embedded with full JS property-lookup
semantics on MODE_MAP: a token naming an inherited Object.prototype member
makes MODE_MAP[token] truthy, so the scalar branch returns that inherited
member itself, and the array branch keeps it as a single non-string
element because flatMap only flattens array return values. -/
def getModesJS : ModeInput → GetModesResult
  | .list entries =>
    let flattened := (entries.map (fun entry =>
      match modeMapProp entry with
      | .list ms => ms.map SurfaceEntry.str
      | .inherited => [SurfaceEntry.protoMember entry]
      | .missing =>
        if SURFACE_KEYS.contains entry then [SurfaceEntry.str entry] else [])).flatten
    .arr (jsSetFromEntries
      (if flattened.isEmpty then SURFACE_KEYS.map SurfaceEntry.str else flattened))
  | .undef => .arr (SURFACE_KEYS.map SurfaceEntry.str)
  | .scalar s =>
    if s == "" then .arr (SURFACE_KEYS.map SurfaceEntry.str)
    else
      match modeMapProp s with
      | .list ms => .arr (ms.map SurfaceEntry.str)
      | .inherited => .inheritedMember s
      | .missing =>
        if SURFACE_KEYS.contains s then .arr [SurfaceEntry.str s]
        else .arr (SURFACE_KEYS.map SurfaceEntry.str)

/-- Whether a mode input names no inherited Object.prototype property, so
that every MODE_MAP lookup it performs hits an own key or misses. -/
def modeInputAvoidsProto : ModeInput → Bool
  | .undef => true
  | .scalar s => !(OBJECT_PROTOTYPE_KEYS.contains s)
  | .list entries => entries.all (fun e => !(OBJECT_PROTOTYPE_KEYS.contains e))

/-- Parameter pipeline of the BILDITAIPixel component: normalize the caller
params, then default the component and source keys when falsy. -/
def bilditAIPixelNormalizedParams (params : Option (List (String × JSVal))) :
    List (String × String) :=
  let np := normalizePixelParams params
  let np := if truthyProp np "component" then np else objSet np "component" "react"
  if truthyProp np "source" then np else objSet np "source" "bildit-ai-pixel"

/-- The image-surface beacon URL computed by the component: the normalized
params spread with mode set to img (in-place overwrite or appended last),
passed through buildPixelSrc. -/
def bilditAIPixelImageSrc (pixelUrl : String) (params : Option (List (String × JSVal))) :
    String :=
  buildPixelSrc pixelUrl (objSet (bilditAIPixelNormalizedParams params) "mode" "img")

/-- Regular-expression AST covering exactly the constructs used by the
AI_BOT_SIGNATURES patterns: literals, the dot (any character except a line
terminator), the whitespace class, alternation, concatenation and star. -/
inductive RE where
  | fail
  | eps
  | lit (cs : List Char)
  | anyNoNL
  | ws
  | alt (a b : RE)
  | cat (a b : RE)
  | star (r : RE)
deriving DecidableEq

/-- Literal pattern from a string. -/
def rlit (s : String) : RE :=
  .lit s.toList

/-- Optional pattern, for the question-mark quantifier. -/
def reOpt (r : RE) : RE :=
  .alt r .eps

/-- JS line terminators (not matched by the dot). -/
def isLineTerm (c : Char) : Bool :=
  c == '\n' || c == '\r' || c.toNat == 0x2028 || c.toNat == 0x2029

/-- JS whitespace class for the backslash-s escape. -/
def isJsWs (c : Char) : Bool :=
  let n := c.toNat
  n == 0x20 || n == 0x09 || n == 0x0A || n == 0x0B || n == 0x0C || n == 0x0D ||
  n == 0xA0 || n == 0x1680 || (0x2000 ≤ n && n ≤ 0x200A) ||
  n == 0x2028 || n == 0x2029 || n == 0x202F || n == 0x205F || n == 0x3000 || n == 0xFEFF

/-- Smart alternation keeping derivative terms small. -/
def REalt : RE → RE → RE
  | .fail, b => b
  | a, .fail => a
  | a, b => .alt a b

/-- Smart concatenation keeping derivative terms small. -/
def REcat : RE → RE → RE
  | .fail, _ => .fail
  | _, .fail => .fail
  | .eps, b => b
  | a, .eps => a
  | a, b => .cat a b

/-- Whether the empty string matches the pattern. -/
def RE.nullable : RE → Bool
  | .fail => false
  | .eps => true
  | .lit cs => cs.isEmpty
  | .anyNoNL => false
  | .ws => false
  | .alt a b => a.nullable || b.nullable
  | .cat a b => a.nullable && b.nullable
  | .star _ => true

/-- Brzozowski derivative with respect to one character. -/
def RE.deriv : RE → Char → RE
  | .fail, _ => .fail
  | .eps, _ => .fail
  | .lit [], _ => .fail
  | .lit (c :: cs), x => if x == c then .lit cs else .fail
  | .anyNoNL, x => if isLineTerm x then .fail else .eps
  | .ws, x => if isJsWs x then .eps else .fail
  | .alt a b, x => REalt (a.deriv x) (b.deriv x)
  | .cat a b, x =>
    if a.nullable then REalt (REcat (a.deriv x) b) (b.deriv x)
    else REcat (a.deriv x) b
  | .star r, x => REcat (r.deriv x) (.star r)

/-- Whether some prefix of the character list matches the pattern. -/
def RE.matchStart : RE → List Char → Bool
  | r, [] => r.nullable
  | r, c :: cs => r.nullable || (r.deriv c).matchStart cs

/-- RegExp.prototype.test: whether the pattern matches anywhere in the list. -/
def reSearch (r : RE) : List Char → Bool
  | [] => r.matchStart []
  | c :: cs => r.matchStart (c :: cs) || reSearch r cs

/-- ASCII lowercasing of one character (models the i flag over the ASCII
patterns used by the signature list). -/
def asciiLower (c : Char) : Char :=
  if 'A' ≤ c ∧ c ≤ 'Z' then Char.ofNat (c.toNat + 32) else c

/-- Case-insensitive test of a pattern against a string. -/
def testPattern (r : RE) (s : String) : Bool :=
  reSearch r (s.toList.map asciiLower)

/-- A bot signature: an identity slug plus its pattern. -/
structure BotSignature where
  slug : String
  pattern : RE
deriving DecidableEq

/-- Signature: gptbot. -/
def sigOpenaiGptbot : BotSignature :=
  ⟨"openai-gptbot", rlit "gptbot"⟩

/-- Signature: chatgpt, or gpt followed by an optional hyphen and crawler. -/
def sigOpenaiChatgpt : BotSignature :=
  ⟨"openai-chatgpt", .alt (rlit "chatgpt") (.cat (rlit "gpt") (.cat (reOpt (rlit "-")) (rlit "crawler")))⟩

/-- Signature: anthropic or claudebot. -/
def sigAnthropicClaudebot : BotSignature :=
  ⟨"anthropic-claudebot", .alt (rlit "anthropic") (rlit "claudebot")⟩

/-- Signature: perplexity or pplx. -/
def sigPerplexity : BotSignature :=
  ⟨"perplexity", .alt (rlit "perplexity") (rlit "pplx")⟩

/-- Signature: google followed by other, snippet or inspect, or one of the
literal alternatives google-extended, gemini, aiagent. -/
def sigGoogleGemini : BotSignature :=
  ⟨"google-gemini",
   .alt (.cat (rlit "google")
          (.cat (.star .anyNoNL)
            (.alt (rlit "other") (.alt (rlit "snippet") (rlit "inspect")))))
     (.alt (rlit "google-extended") (.alt (rlit "gemini") (rlit "aiagent")))⟩

/-- Signature: bingbot, bingpreview, bing-ai, msnbot or cpt-ai. -/
def sigBingCopilot : BotSignature :=
  ⟨"bing-copilot",
   .alt (rlit "bingbot") (.alt (rlit "bingpreview") (.alt (rlit "bing-ai")
     (.alt (rlit "msnbot") (rlit "cpt-ai"))))⟩

/-- Signature: facebookexternalhit, facebot or meta-ai. -/
def sigMetaAi : BotSignature :=
  ⟨"meta-ai", .alt (rlit "facebookexternalhit") (.alt (rlit "facebot") (rlit "meta-ai"))⟩

/-- Signature: grok, x-ai, xbot or xai-bot. -/
def sigXaiGrok : BotSignature :=
  ⟨"xai-grok", .alt (rlit "grok") (.alt (rlit "x-ai") (.alt (rlit "xbot") (rlit "xai-bot")))⟩

/-- Signature: baidu or ernie. -/
def sigBaiduErnie : BotSignature :=
  ⟨"baidu-ernie", .alt (rlit "baidu") (rlit "ernie")⟩

/-- Signature: moonshot or kimi. -/
def sigKimiMoonshot : BotSignature :=
  ⟨"kimi-moonshot", .alt (rlit "moonshot") (rlit "kimi")⟩

/-- Signature: deepseek or deepthinker. -/
def sigDeepseek : BotSignature :=
  ⟨"deepseek", .alt (rlit "deepseek") (rlit "deepthinker")⟩

/-- Signature: ai then whitespace or hyphen then agent, or one of the
literal alternatives ai crawler, llm, large language. -/
def sigGenericAi : BotSignature :=
  ⟨"generic-ai",
   .alt (.cat (rlit "ai") (.cat (.alt .ws (rlit "-")) (rlit "agent")))
     (.alt (rlit "ai crawler") (.alt (rlit "llm") (rlit "large language")))⟩

/-- The ordered, fixed signature list AI_BOT_SIGNATURES. -/
def AI_BOT_SIGNATURES : List BotSignature :=
  [sigOpenaiGptbot, sigOpenaiChatgpt, sigAnthropicClaudebot, sigPerplexity,
   sigGoogleGemini, sigBingCopilot, sigMetaAi, sigXaiGrok, sigBaiduErnie,
   sigKimiMoonshot, sigDeepseek, sigGenericAi]

/-- Source function identifyAIBot: a falsy user agent (absent or empty)
yields no match, otherwise the first signature whose pattern matches. -/
def identifyAIBot (userAgent : Option String) : Option BotSignature :=
  match userAgent with
  | none => none
  | some ua =>
    if ua == "" then none
    else AI_BOT_SIGNATURES.find? (fun sig => testPattern sig.pattern ua)

/-- Header value as carried by node-style header maps: a string or an
array of strings. -/
inductive HeaderVal where
  | str (s : String)
  | arr (l : List String)
deriving DecidableEq

/-- First element of a header value (value[0] of an empty array is undefined). -/
def headerValFirst : HeaderVal → Option String
  | .str s => some s
  | .arr l => l.head?

/-- The three duck-typed header containers accepted by toHeaderValue:
getter-style, iterable pairs, and a plain object map. -/
inductive HeadersLike where
  | getter (get : String → Option String)
  | pairs (entries : List (String × HeaderVal))
  | objMap (entries : List (String × HeaderVal))

/-- ASCII lowercasing of a string (String.prototype.toLowerCase on the
ASCII header names used here). -/
def toLowerAscii (s : String) : String :=
  String.mk (s.toList.map asciiLower)

/-- Source function toHeaderValue: case-insensitive header lookup over any
of the three container shapes; absent container or missing header yields
undefined. -/
def toHeaderValue (headersLike : Option HeadersLike) (name : String) : Option String :=
  match headersLike with
  | none => none
  | some hl =>
    let target := toLowerAscii name
    match hl with
    | .getter get =>
      match get name with
      | some direct => some direct
      | none => get target
    | .pairs entries =>
      match entries.find? (fun kv => toLowerAscii kv.1 == target) with
      | some kv => headerValFirst kv.2
      | none => none
    | .objMap entries =>
      match entries.find? (fun kv => toLowerAscii kv.1 == target) with
      | some kv => headerValFirst kv.2
      | none => none

/-- Simplified WHATWG URL: scheme, host (with any port), path, and the
query as decoded key/value pairs.  Host normalization and fragments are
outside the fragment of the API exercised by the source. -/
structure ParsedURL where
  scheme : String
  host : String
  path : String
  query : List (String × String)
deriving DecidableEq

/-- Hex digit value of a character, if any. -/
def hexVal (c : Char) : Option Nat :=
  if '0' ≤ c ∧ c ≤ '9' then some (c.toNat - 48)
  else if 'A' ≤ c ∧ c ≤ 'F' then some (c.toNat - 55)
  else if 'a' ≤ c ∧ c ≤ 'f' then some (c.toNat - 87)
  else none

/-- Byte-level form-urlencoded decoding: plus becomes space, valid percent
escapes become bytes, everything else contributes its UTF-8 bytes. -/
def percentDecodeBytes : List Char → List UInt8
  | [] => []
  | '+' :: rest => 0x20 :: percentDecodeBytes rest
  | '%' :: h :: l :: rest =>
    match hexVal h, hexVal l with
    | some hv, some lv => UInt8.ofNat (hv * 16 + lv) :: percentDecodeBytes rest
    | _, _ => utf8Bytes '%' ++ percentDecodeBytes (h :: l :: rest)
  | c :: rest => utf8Bytes c ++ percentDecodeBytes rest

/-- Whether a byte is a UTF-8 continuation byte. -/
def isContByte (b : UInt8) : Bool :=
  0x80 ≤ b.toNat && b.toNat < 0xC0

/-- Value bits of a continuation byte. -/
def contVal (b : UInt8) : Nat :=
  b.toNat - 0x80

/-- UTF-8 decoding with replacement-character recovery; the fuel argument
(at least the list length) keeps the recursion structural. -/
def utf8DecodeAux : Nat → List UInt8 → List Char
  | 0, _ => []
  | _ + 1, [] => []
  | fuel + 1, b :: rest =>
    let n := b.toNat
    if n < 0x80 then Char.ofNat n :: utf8DecodeAux fuel rest
    else if 0xC0 ≤ n ∧ n < 0xE0 then
      match rest with
      | b2 :: rest2 =>
        if isContByte b2 then
          Char.ofNat (((n - 0xC0) <<< 6) + contVal b2) :: utf8DecodeAux fuel rest2
        else Char.ofNat 0xFFFD :: utf8DecodeAux fuel rest
      | [] => [Char.ofNat 0xFFFD]
    else if 0xE0 ≤ n ∧ n < 0xF0 then
      match rest with
      | b2 :: b3 :: rest3 =>
        if isContByte b2 && isContByte b3 then
          Char.ofNat (((n - 0xE0) <<< 12) + (contVal b2 <<< 6) + contVal b3)
            :: utf8DecodeAux fuel rest3
        else Char.ofNat 0xFFFD :: utf8DecodeAux fuel rest
      | _ => [Char.ofNat 0xFFFD]
    else if 0xF0 ≤ n ∧ n < 0xF8 then
      match rest with
      | b2 :: b3 :: b4 :: rest4 =>
        if isContByte b2 && isContByte b3 && isContByte b4 then
          Char.ofNat (((n - 0xF0) <<< 18) + (contVal b2 <<< 12) + (contVal b3 <<< 6) + contVal b4)
            :: utf8DecodeAux fuel rest4
        else Char.ofNat 0xFFFD :: utf8DecodeAux fuel rest
      | _ => [Char.ofNat 0xFFFD]
    else Char.ofNat 0xFFFD :: utf8DecodeAux fuel rest

/-- UTF-8 decoding of a byte list. -/
def utf8DecodeList (l : List UInt8) : List Char :=
  utf8DecodeAux l.length l

/-- Decoded string of a form-urlencoded component. -/
def decodeFormComponent (cs : List Char) : String :=
  String.mk (utf8DecodeList (percentDecodeBytes cs))

/-- Split a character list at the first character satisfying the predicate;
the second component starts at the matching character. -/
def splitAtFirstChar (p : Char → Bool) : List Char → (List Char × List Char)
  | [] => ([], [])
  | c :: cs =>
    if p c then ([], c :: cs)
    else
      let (pre, post) := splitAtFirstChar p cs
      (c :: pre, post)

/-- Split before and after the first occurrence of a separator sequence. -/
def splitOnSeq (sep : List Char) : List Char → Option (List Char × List Char)
  | [] => if sep.isEmpty then some ([], []) else none
  | c :: cs =>
    if sep.isPrefixOf (c :: cs) then some ([], (c :: cs).drop sep.length)
    else
      match splitOnSeq sep cs with
      | some (pre, post) => some (c :: pre, post)
      | none => none

/-- application/x-www-form-urlencoded parsing of a raw query (without the
question mark): fields split on ampersands, empty fields skipped, each
field split at its first equals sign, both sides decoded. -/
def parseQueryPairs (raw : List Char) : List (String × String) :=
  (raw.splitOn '&').filterMap (fun piece =>
    if piece.isEmpty then none
    else
      let (k, rest) := splitAtFirstChar (fun c => c == '=') piece
      let v := match rest with
        | _ :: vs => vs
        | [] => []
      some (decodeFormComponent k, decodeFormComponent v))

/-- Valid scheme: a letter followed by letters, digits, plus, minus or dot. -/
def validScheme (cs : List Char) : Bool :=
  match cs with
  | [] => false
  | c :: rest => c.isAlpha && rest.all (fun x => x.isAlphanum || x == '+' || x == '-' || x == '.')

/-- Simplified new URL(s): require scheme://host, then split path, query
and fragment.  Parse failure models the constructor throwing. -/
def parseURL (s : String) : Option ParsedURL :=
  match splitOnSeq "://".toList s.toList with
  | none => none
  | some (schemeCs, rest) =>
    if validScheme schemeCs then
      let (hostCs, afterHost) := splitAtFirstChar (fun c => c == '/' || c == '?' || c == '#') rest
      if hostCs.isEmpty then none
      else
        let (pathCs, afterPath) := splitAtFirstChar (fun c => c == '?' || c == '#') afterHost
        let query :=
          match afterPath with
          | '?' :: qs =>
            let (qraw, _) := splitAtFirstChar (fun c => c == '#') qs
            parseQueryPairs qraw
          | _ => []
        some ⟨String.mk (schemeCs.map asciiLower), String.mk hostCs, String.mk pathCs, query⟩
    else none

/-- URL origin for the http-style URLs used here: scheme://host. -/
def urlOrigin (u : ParsedURL) : String :=
  u.scheme ++ "://" ++ u.host

/-- URLSearchParams.has. -/
def spHas (l : List (String × String)) (k : String) : Bool :=
  l.any (fun kv => kv.1 == k)

/-- URLSearchParams.get. -/
def spGet (l : List (String × String)) (k : String) : Option String :=
  (l.find? (fun kv => kv.1 == k)).map (fun kv => kv.2)

/-- URLSearchParams.set: overwrite the first binding in place, dropping any
later duplicates, or append when the key is absent. -/
def spSet : List (String × String) → String → String → List (String × String)
  | [], k, v => [(k, v)]
  | (k', v') :: rest, k, v =>
    if k' == k then (k, v) :: rest.filter (fun kv => kv.1 != k)
    else (k', v') :: spSet rest k v

/-- URL serialization: empty paths render as a slash (http-style URLs) and
a non-empty query is serialized by the URLSearchParams serializer. -/
def urlToString (u : ParsedURL) : String :=
  u.scheme ++ "://" ++ u.host ++ (if u.path == "" then "/" else u.path) ++
    (if u.query.isEmpty then "" else "?" ++ serializeQueryPairs u.query)

/-- Source function ensureSearchParam: skip nullish values, otherwise set
the stringified value (values here are already strings). -/
def ensureSearchParam (u : ParsedURL) (k v : String) : ParsedURL :=
  { u with query := spSet u.query k v }

/-- Source function buildPixelUrlWithParams: parse the pixel URL (the
constructor throw models as the error case), set every param, then fall
back to the referer origin for a missing site param, swallowing referer
parse failures. -/
def buildPixelUrlWithParams (pixelUrl : String) (params : List (String × String)) :
    Except String ParsedURL :=
  match parseURL pixelUrl with
  | none => .error "Invalid URL"
  | some u0 =>
    let u := params.foldl (fun u kv => ensureSearchParam u kv.1 kv.2) u0
    let u :=
      if spHas u.query "site" then u
      else
        match objGet params "referer" with
        | some r =>
          if r != "" then
            match parseURL r with
            | some ref => ensureSearchParam u "site" (urlOrigin ref)
            | none => u
          else u
        | none => u
    .ok u

/-- Default event name for server-side bot beacons. -/
def DEFAULT_BOT_EVENT : String := "next-bot"

/-- Source function withNextDefaults: copy the params and default the
component, framework and source keys when loosely null. -/
def withNextDefaults (params : Option (List (String × JSVal))) : List (String × JSVal) :=
  let merged := params.getD []
  let merged :=
    if jsNullish (objGetJS merged "component") then objSetJS merged "component" (.str "nextjs")
    else merged
  let merged :=
    if jsNullish (objGetJS merged "framework") then objSetJS merged "framework" (.str "nextjs")
    else merged
  if jsNullish (objGetJS merged "source") then objSetJS merged "source" (.str "bildit-ai-pixel")
  else merged

/-- Request-like object passed to the dispatcher: an optional raw URL and
an optional header container. -/
structure RequestLike where
  url : Option String
  headers : Option HeadersLike

/-- Dispatcher options (the fields that affect observable behavior). -/
structure TrackOptions where
  pixelUrl : String
  params : Option (List (String × JSVal))
  requireBotMatch : Bool
  force : Bool
  userAgent : Option String
  referer : Option String
  headers : Option HeadersLike

/-- Options defaults as destructured by the source: default endpoint,
requireBotMatch true, force false, everything else absent. -/
def defaultTrackOptions : TrackOptions :=
  ⟨PIXEL_URL, none, true, false, none, none, none⟩

/-- Response visible to the dispatcher from a successful fetch. -/
structure FetchResponse where
  status : Nat
  ok : Bool
deriving DecidableEq

/-- Runtime environment of one dispatcher invocation: whether a global
fetch function exists, the network outcome per requested URL (an error
models a rejected fetch), plus the Date.now and Math.random draws. -/
structure TrackEnv where
  fetchAvailable : Bool
  fetchResult : String → Except String FetchResponse
  now : Nat
  nonce : String

/-- Result object of the dispatcher; absent JS keys are none. -/
structure TrackResult where
  triggered : Bool
  status : Option Nat
  ok : Option Bool
  skipped : Option Bool
  reason : Option String
  error : Option String
  url : Option String
  userAgent : Option String
  referer : Option String
  bot : Option String
deriving DecidableEq

/-- Dispatcher outcome: the result object, the beacon URL it constructed
(when it got that far), and whether a network call was attempted. -/
structure TrackOutcome where
  result : TrackResult
  builtUrl : Option ParsedURL
  networkAttempted : Bool
deriving DecidableEq

/-- Header container resolution: the explicit override, else the request
object's headers. -/
def resolveHeadersLike (request : Option RequestLike) (opts : TrackOptions) :
    Option HeadersLike :=
  match opts.headers with
  | some hl => some hl
  | none =>
    match request with
    | some req => req.headers
    | none => none

/-- User-agent resolution: the truthy override, else the user-agent header. -/
def resolveUserAgent (request : Option RequestLike) (opts : TrackOptions) : Option String :=
  jsOrStr opts.userAgent (toHeaderValue (resolveHeadersLike request opts) "user-agent")

/-- Referer resolution: the truthy override, else the referer header, else
the referrer header. -/
def resolveReferer (request : Option RequestLike) (opts : TrackOptions) : Option String :=
  jsOrStr opts.referer
    (jsOrStr (toHeaderValue (resolveHeadersLike request opts) "referer")
      (toHeaderValue (resolveHeadersLike request opts) "referrer"))

/-- Outgoing parameter construction of the dispatcher (source lines between
the skip gate and the URL build): normalize with Next defaults, fill
mode, event, ts, nonce, ua, referer and bot when not already truthy, then
resolve the site parameter.  A truthy referer commits the site resolution
to its parsed origin (a parse failure is caught and leaves site unset);
only an absent referer tries the request URL origin, then the forwarded
headers (scheme defaulting to https), then the raw Host header. -/
def dispatchParams (now : Nat) (nonce : String) (request : Option RequestLike)
    (opts : TrackOptions) : List (String × String) :=
  let headersLike := resolveHeadersLike request opts
  let userAgent := resolveUserAgent request opts
  let referer := resolveReferer request opts
  let botSignature := identifyAIBot userAgent
  let np := normalizePixelParams (some (withNextDefaults opts.params))
  let np := if truthyProp np "mode" then np else objSet np "mode" "server"
  let np := if truthyProp np "event" then np else objSet np "event" DEFAULT_BOT_EVENT
  let np := if truthyProp np "ts" then np else objSet np "ts" (toString now)
  let np := if truthyProp np "nonce" then np else objSet np "nonce" nonce
  let np :=
    if optTruthy userAgent && !truthyProp np "ua" then objSet np "ua" (userAgent.getD "")
    else np
  let np :=
    if optTruthy referer && !truthyProp np "referer" then objSet np "referer" (referer.getD "")
    else np
  let np :=
    match botSignature with
    | some sig => if !truthyProp np "bot" then objSet np "bot" sig.slug else np
    | none => np
  if truthyProp np "site" then np
  else if optTruthy referer then
    match parseURL (referer.getD "") with
    | some ref => objSet np "site" (urlOrigin ref)
    | none => np
  else
    let cand : Option String :=
      match request with
      | some req =>
        match req.url with
        | some u => (parseURL u).map urlOrigin
        | none => none
      | none => none
    let cand :=
      if optTruthy cand then cand
      else
        let xfProto :=
          match toHeaderValue headersLike "x-forwarded-proto" with
          | some p => if p != "" then p else "https"
          | none => "https"
        match toHeaderValue headersLike "x-forwarded-host" with
        | some h => if h != "" then some (xfProto ++ "://" ++ h) else none
        | none => none
    let cand :=
      if optTruthy cand then cand
      else
        match toHeaderValue headersLike "host" with
        | some h => if h != "" then some ("https://" ++ h) else none
        | none => none
    match cand with
    | some c => if c != "" then objSet np "site" c else np
    | none => np

/-- The skip gate of the dispatcher: not forced, a bot match required, and
the classifier found none. -/
def nonBotGate (request : Option RequestLike) (opts : TrackOptions) : Bool :=
  !opts.force && opts.requireBotMatch && (identifyAIBot (resolveUserAgent request opts)).isNone

/-- The skip result for a non-bot user agent. -/
def nonBotSkipResult (userAgent referer : Option String) : TrackResult :=
  { triggered := false, status := none, ok := none, skipped := some true,
    reason := some "non-bot-user-agent", error := none, url := none,
    userAgent := userAgent, referer := referer, bot := none }

/-- The skip result for a missing fetch capability, still echoing the
constructed URL. -/
def fetchUnavailableResult (userAgent referer bot : Option String) (url : ParsedURL) :
    TrackResult :=
  { triggered := false, status := none, ok := none, skipped := some true,
    reason := some "fetch-unavailable", error := none,
    url := some (urlToString url), userAgent := userAgent, referer := referer, bot := bot }

/-- The success result carrying the response status and ok flag. -/
def fetchSuccessResult (userAgent referer bot : Option String) (url : ParsedURL)
    (resp : FetchResponse) : TrackResult :=
  { triggered := true, status := some resp.status, ok := some resp.ok,
    skipped := none, reason := none, error := none,
    url := some (urlToString url), userAgent := userAgent, referer := referer, bot := bot }

/-- The failure result capturing the network error as a string. -/
def fetchErrorResult (userAgent referer bot : Option String) (url : ParsedURL)
    (msg : String) : TrackResult :=
  { triggered := false, status := none, ok := none, skipped := none,
    reason := none, error := some msg,
    url := some (urlToString url), userAgent := userAgent, referer := referer, bot := bot }

/-- Source function trackAIBotRequestForPixel.  The error case of the
Except models the one uncaught throw (an unparseable pixel URL inside
buildPixelUrlWithParams); every other path returns a structured outcome.
Debug logging is observability-only and not modeled. -/
def trackAIBotRequestForPixel (env : TrackEnv) (request : Option RequestLike)
    (opts : TrackOptions) : Except String TrackOutcome :=
  let userAgent := resolveUserAgent request opts
  let referer := resolveReferer request opts
  let botSignature := identifyAIBot userAgent
  if nonBotGate request opts then
    .ok ⟨nonBotSkipResult userAgent referer, none, false⟩
  else
    match buildPixelUrlWithParams opts.pixelUrl (dispatchParams env.now env.nonce request opts) with
    | .error e => .error e
    | .ok url =>
      if !env.fetchAvailable then
        .ok ⟨fetchUnavailableResult userAgent referer (botSignature.map (fun s => s.slug)) url,
             some url, false⟩
      else
        match env.fetchResult (urlToString url) with
        | .ok resp =>
          .ok ⟨fetchSuccessResult userAgent referer (botSignature.map (fun s => s.slug)) url resp,
               some url, true⟩
        | .error msg =>
          .ok ⟨fetchErrorResult userAgent referer (botSignature.map (fun s => s.slug)) url msg,
               some url, true⟩

/-- The site query parameter of the beacon URL a dispatcher call built. -/
def dispatchedSite (r : Except String TrackOutcome) : Option String :=
  match r with
  | .ok out =>
    match out.builtUrl with
    | some u => spGet u.query "site"
    | none => none
  | .error _ => none

/-- Source function resolveModeWithoutScript, helper: scalar expansion of
one entry (auto and server expand to the script-free trio, image aliases
img, anything else maps to itself). -/
def expandEntryNoScript (entry : String) : List String :=
  if entry == "auto" || entry == "server" then ["img", "iframe", "noscript"]
  else if entry == "image" then ["img"]
  else [entry]

/-- Accumulation step of the unique loop: keep first occurrences that are
known surfaces. -/
def surfaceAdd (acc : List String) (s : String) : List String :=
  if !acc.contains s && SURFACE_KEYS.contains s then acc ++ [s] else acc

/-- Body of resolveModeWithoutScript on a non-empty entry list. -/
def resolveModeWithoutScriptEntries (entries : List String) : List String :=
  let expanded := (entries.map expandEntryNoScript).flatten
  let filtered := expanded.filter (fun surface => surface != "script")
  if filtered.isEmpty then ["img", "iframe", "noscript"]
  else
    let unique := filtered.foldl surfaceAdd []
    if unique.isEmpty then ["img", "iframe", "noscript"]
    else unique

/-- Source function resolveModeWithoutScript: falsy or empty input falls
back to the script-free trio; otherwise expand each entry, drop the script
surface unconditionally, keep known surfaces de-duplicated, and fall back
to the trio whenever the result would be empty. -/
def resolveModeWithoutScript : ModeInput → List String
  | .undef => ["img", "iframe", "noscript"]
  | .scalar s =>
    if s == "" then ["img", "iframe", "noscript"]
    else resolveModeWithoutScriptEntries [s]
  | .list entries =>
    if entries.isEmpty then ["img", "iframe", "noscript"]
    else resolveModeWithoutScriptEntries entries

/-- Success variant of the closed dispatcher result: triggered with a
status and ok flag, no skip, no reason, no error. -/
def isTriggeredSuccess (r : TrackResult) : Prop :=
  r.triggered = true ∧ r.status.isSome = true ∧ r.ok.isSome = true ∧
  r.skipped = none ∧ r.reason = none ∧ r.error = none

/-- Skipped variant of the closed dispatcher result: not triggered,
skipped with one of the two machine-readable reasons, no error. -/
def isSkippedOutcome (r : TrackResult) : Prop :=
  r.triggered = false ∧ r.skipped = some true ∧
  (r.reason = some "non-bot-user-agent" ∨ r.reason = some "fetch-unavailable") ∧
  r.status = none ∧ r.ok = none ∧ r.error = none

/-- Errored variant of the closed dispatcher result: not triggered and the
error captured as a string; no skip, no reason, no status. -/
def isErroredOutcome (r : TrackResult) : Prop :=
  r.triggered = false ∧ r.error.isSome = true ∧
  r.skipped = none ∧ r.reason = none ∧ r.status = none ∧ r.ok = none

/-- Conclusion of the closed-variant claim for one dispatcher invocation:
the call returns a structured outcome; the outcome is one of the three
closed variants; a fetch-unavailable skip still echoes the constructed URL
and attempts no network call; when fetch is available, a network error
yields the errored variant with the message captured, and a response
yields the success variant with its status and ok flag. -/
def dispatcherClosedVariants (env : TrackEnv) (request : Option RequestLike)
    (opts : TrackOptions) : Prop :=
  ∃ out, trackAIBotRequestForPixel env request opts = .ok out ∧
    (isTriggeredSuccess out.result ∨ isSkippedOutcome out.result ∨ isErroredOutcome out.result) ∧
    (out.result.reason = some "fetch-unavailable" →
      out.result.url.isSome = true ∧ out.networkAttempted = false) ∧
    (∀ u, out.builtUrl = some u → env.fetchAvailable = true →
      (∀ msg, env.fetchResult (urlToString u) = .error msg →
        out.result.triggered = false ∧ out.result.error = some msg) ∧
      (∀ resp, env.fetchResult (urlToString u) = .ok resp →
        out.result.triggered = true ∧ out.result.status = some resp.status ∧
          out.result.ok = some resp.ok))

/-- Modelled from the spec: the site fallback chain of spec section 4.6
step 5 is described as "stopping at the first that succeeds" over (a) the
explicit site param, (b) the origin parsed from the referer, (c) the
origin parsed from the request URL, (d) scheme://host from the
x-forwarded-proto and x-forwarded-host headers with the scheme defaulting
to https, (e) https:// plus the raw Host header, else no site.  This
definition follows the spec wording (an unparseable referer simply fails
its step and the chain continues); it exists to compare against the code. -/
def siteFallbackChainSpec (explicitSite referer requestUrl xfProto xfHost host :
    Option String) : Option String :=
  match explicitSite with
  | some s => some s
  | none =>
    match referer.bind (fun r => (parseURL r).map urlOrigin) with
    | some o => some o
    | none =>
      match requestUrl.bind (fun r => (parseURL r).map urlOrigin) with
      | some o => some o
      | none =>
        match xfHost with
        | some h => some ((xfProto.getD "https") ++ "://" ++ h)
        | none => host.map (fun h => "https://" ++ h)

/-- An ordinary non-bot browser user agent (spec property P5). -/
def uaBrowser : String := "Mozilla/5.0 (ordinary browser)"

/-- A concrete environment with fetch available and every request
succeeding with a 200 response. -/
def envFetchOk : TrackEnv :=
  ⟨true, fun _ => .ok ⟨200, true⟩, 0, "n0"⟩

/-- P5 options: a non-bot user agent, requireBotMatch true, force false. -/
def optsP5 : TrackOptions :=
  ⟨PIXEL_URL, none, true, false, some uaBrowser, none, none⟩

/-- P6 options: identical to P5 but force true. -/
def optsP6 : TrackOptions :=
  ⟨PIXEL_URL, none, true, true, some uaBrowser, none, none⟩

/-- Headers carrying only the two forwarded headers (spec property P7). -/
def hdrsXF : HeadersLike :=
  .objMap [("x-forwarded-proto", .str "https"), ("x-forwarded-host", .str "example.com")]

/-- Headers carrying only a forwarded host, no forwarded proto. -/
def hdrsXFHostOnly : HeadersLike :=
  .objMap [("x-forwarded-host", .str "example.com")]

/-- Headers carrying only a Host header (mixed case name). -/
def hdrsHost : HeadersLike :=
  .objMap [("Host", .str "hostonly.example")]

/-- Forced dispatch with no identity sources at all. -/
def optsForce : TrackOptions :=
  ⟨PIXEL_URL, none, true, true, none, none, none⟩

/-- Forced dispatch with only the forwarded headers. -/
def optsForceXF : TrackOptions :=
  ⟨PIXEL_URL, none, true, true, none, none, some hdrsXF⟩

/-- Forced dispatch with only a forwarded host header. -/
def optsForceXFHostOnly : TrackOptions :=
  ⟨PIXEL_URL, none, true, true, none, none, some hdrsXFHostOnly⟩

/-- Forced dispatch with only a Host header. -/
def optsForceHost : TrackOptions :=
  ⟨PIXEL_URL, none, true, true, none, none, some hdrsHost⟩

/-- Forced dispatch with a parseable referer, forwarded headers also
present. -/
def optsForceRef : TrackOptions :=
  ⟨PIXEL_URL, none, true, true, none, some "https://ref.example/page", some hdrsXF⟩

/-- Forced dispatch with an explicit site param and a referer. -/
def optsForceSiteParam : TrackOptions :=
  ⟨PIXEL_URL, some [("site", .str "https://param.example")], true, true, none,
   some "https://ref.example/page", some hdrsXF⟩

/-- Forced dispatch with a truthy but unparseable referer. -/
def optsForceBadRef : TrackOptions :=
  ⟨PIXEL_URL, none, true, true, none, some "not a url", none⟩

/-- A request object carrying only a raw URL. -/
def reqUrlOnly : RequestLike :=
  ⟨some "https://req.example/path", none⟩

/-! Helper lemmas about the embedded operations. -/

/-- Membership after the JS Set fold: exactly the accumulator plus the input. -/
theorem mem_foldl_jsSetAdd (l : List String) :
    ∀ (acc : List String) (x : String), x ∈ l.foldl jsSetAdd acc ↔ x ∈ acc ∨ x ∈ l := by
  induction l with
  | nil => intro acc x; simp
  | cons y ys ih =>
    intro acc x
    simp only [List.foldl_cons, ih, jsSetAdd]
    by_cases hy : acc.contains y = true
    · simp only [hy, if_pos]
      constructor
      · rintro (h | h)
        · exact Or.inl h
        · exact Or.inr (List.mem_cons_of_mem _ h)
      · rintro (h | h)
        · exact Or.inl h
        · rcases List.mem_cons.mp h with rfl | h
          · exact Or.inl (by simpa using hy)
          · exact Or.inr h
    · simp only [hy, if_neg, Bool.false_eq_true, not_false_iff, List.mem_append,
        List.mem_singleton]
      constructor
      · rintro (⟨h | h⟩ | h)
        · exact Or.inl h
        · exact Or.inr (List.mem_cons.mpr (Or.inl h))
        · exact Or.inr (List.mem_cons_of_mem _ h)
      · rintro (h | h)
        · exact Or.inl (Or.inl h)
        · rcases List.mem_cons.mp h with rfl | h
          · exact Or.inl (Or.inr rfl)
          · exact Or.inr h

/-- The JS Set fold preserves duplicate-freeness of the accumulator. -/
theorem nodup_foldl_jsSetAdd (l : List String) :
    ∀ (acc : List String), acc.Nodup → (l.foldl jsSetAdd acc).Nodup := by
  induction l with
  | nil => intro acc h; simpa using h
  | cons y ys ih =>
    intro acc h
    simp only [List.foldl_cons]
    apply ih
    unfold jsSetAdd
    by_cases hy : acc.contains y = true
    · rw [if_pos hy]; exact h
    · rw [if_neg hy]
      rw [← List.concat_eq_append]
      exact List.Nodup.concat (by simpa using hy) h

/-- The JS Set fold of a non-empty list is non-empty. -/
theorem foldl_jsSetAdd_ne_nil (l : List String) (acc : List String) (x : String)
    (hx : x ∈ l) : l.foldl jsSetAdd acc ≠ [] :=
  List.ne_nil_of_mem ((mem_foldl_jsSetAdd l acc x).mpr (Or.inr hx))

/-- Elements produced by the surface unique loop come from the accumulator
or the input. -/
theorem mem_foldl_surfaceAdd (l : List String) :
    ∀ (acc : List String) (x : String), x ∈ l.foldl surfaceAdd acc → x ∈ acc ∨ x ∈ l := by
  induction l with
  | nil => intro acc x h; exact Or.inl (by simpa using h)
  | cons y ys ih =>
    intro acc x h
    rcases ih (surfaceAdd acc y) x h with h' | h'
    · unfold surfaceAdd at h'
      by_cases hcond : (!acc.contains y && SURFACE_KEYS.contains y) = true
      · rw [if_pos hcond] at h'
        rcases List.mem_append.mp h' with h'' | h''
        · exact Or.inl h''
        · exact Or.inr (List.mem_cons.mpr (Or.inl (List.mem_singleton.mp h'')))
      · rw [if_neg hcond] at h'
        exact Or.inl h'
    · exact Or.inr (List.mem_cons_of_mem _ h')

/-- A key/value pair serializes to a non-empty string (it contains the
equals sign). -/
theorem formEncodePair_length_pos (kv : String × String) : 0 < (formEncodePair kv).length := by
  unfold formEncodePair
  rw [String.length_append, String.length_append]
  have h : ("=" : String).length = 1 := rfl
  omega

/-- The serialization of a non-empty pair list is a non-empty string. -/
theorem serializeQueryPairs_ne_empty (kv : String × String) (rest : List (String × String)) :
    serializeQueryPairs (kv :: rest) ≠ "" := by
  intro h
  have hlen : (serializeQueryPairs (kv :: rest)).length = 0 := by rw [h]; rfl
  cases rest with
  | nil =>
    rw [show serializeQueryPairs [kv] = formEncodePair kv from rfl] at hlen
    have := formEncodePair_length_pos kv
    omega
  | cons kv2 rest2 =>
    rw [show serializeQueryPairs (kv :: kv2 :: rest2)
        = formEncodePair kv ++ "&" ++ serializeQueryPairs (kv2 :: rest2) from rfl] at hlen
    rw [String.length_append, String.length_append] at hlen
    have := formEncodePair_length_pos kv
    omega

/-- Values stored in MODE_MAP are non-empty, duplicate-free sublists of the
surface set. -/
theorem modeMapLookup_spec (k : String) (ms : List String) (h : modeMapLookup k = some ms) :
    ms ≠ [] ∧ ms.Nodup ∧ ∀ x ∈ ms, x ∈ SURFACE_KEYS := by
  unfold modeMapLookup at h
  rcases Option.map_eq_some'.mp h with ⟨kv, hfind, hval⟩
  have hmem := List.mem_of_find?_eq_some hfind
  subst hval
  simp only [ MODE_MAP, List.mem_cons, List.not_mem_nil, or_false] at hmem
  rcases hmem with rfl | rfl | rfl | rfl | rfl | rfl | rfl <;>
    refine ⟨by decide, by decide, by decide⟩
theorem track_gate_true (env : TrackEnv) (req : Option RequestLike) (opts : TrackOptions)
    (hg : nonBotGate req opts = true) :
    trackAIBotRequestForPixel env req opts =
      .ok ⟨nonBotSkipResult (resolveUserAgent req opts) (resolveReferer req opts), none, false⟩ := by
  unfold trackAIBotRequestForPixel
  rw [if_pos hg]

theorem track_gate_false (env : TrackEnv) (req : Option RequestLike) (opts : TrackOptions)
    (u : ParsedURL) (hg : nonBotGate req opts = false)
    (hb : buildPixelUrlWithParams opts.pixelUrl (dispatchParams env.now env.nonce req opts) = .ok u) :
    trackAIBotRequestForPixel env req opts =
      (if env.fetchAvailable = false then
        .ok ⟨fetchUnavailableResult (resolveUserAgent req opts) (resolveReferer req opts)
              ((identifyAIBot (resolveUserAgent req opts)).map (fun s => s.slug)) u, some u, false⟩
      else
        match env.fetchResult (urlToString u) with
        | .ok resp =>
          .ok ⟨fetchSuccessResult (resolveUserAgent req opts) (resolveReferer req opts)
                ((identifyAIBot (resolveUserAgent req opts)).map (fun s => s.slug)) u resp,
               some u, true⟩
        | .error msg =>
          .ok ⟨fetchErrorResult (resolveUserAgent req opts) (resolveReferer req opts)
                ((identifyAIBot (resolveUserAgent req opts)).map (fun s => s.slug)) u msg,
               some u, true⟩) := by
  unfold trackAIBotRequestForPixel
  rw [if_neg (by simp [hg]), hb]
  cases hf : env.fetchAvailable <;> simp [hf]
theorem contains_script_entries_false (entries : List String) :
    (resolveModeWithoutScriptEntries entries).contains "script" = false := by
  unfold resolveModeWithoutScriptEntries
  by_cases h1 : ((entries.map expandEntryNoScript).flatten.filter
      (fun surface => surface != "script")).isEmpty = true
  · rw [if_pos h1]; decide
  · rw [if_neg h1]
    by_cases h2 : (((entries.map expandEntryNoScript).flatten.filter
        (fun surface => surface != "script")).foldl surfaceAdd []).isEmpty = true
    · rw [if_pos h2]; decide
    · rw [if_neg h2]
      rw [Bool.eq_false_iff]
      intro hc
      have hmem : "script" ∈ ((entries.map expandEntryNoScript).flatten.filter
          (fun surface => surface != "script")).foldl surfaceAdd [] := by simpa using hc
      rcases mem_foldl_surfaceAdd _ _ _ hmem with h | h
      · simp at h
      · have := (List.mem_filter.mp h).2
        simp at this

theorem scriptfree_contains_script_false (m : ModeInput) :
    (resolveModeWithoutScript m).contains "script" = false := by
  cases m with
  | undef => decide
  | scalar s =>
    show (if s == "" then ["img", "iframe", "noscript"]
      else resolveModeWithoutScriptEntries [s]).contains "script" = false
    by_cases hs : (s == "") = true
    · rw [if_pos hs]; decide
    · rw [if_neg hs]; exact contains_script_entries_false [s]
  | list entries =>
    show (if entries.isEmpty then ["img", "iframe", "noscript"]
      else resolveModeWithoutScriptEntries entries).contains "script" = false
    by_cases hs : entries.isEmpty = true
    · rw [if_pos hs]; decide
    · rw [if_neg hs]; exact contains_script_entries_false entries

/-- Claim C5: surface selection. -/
theorem surface_selection_c5 :
    getModes .undef = ["img", "iframe", "noscript", "script"] ∧
    getModes (.scalar "auto") = ["img", "iframe", "noscript", "script"] ∧
    getModes (.scalar "server") = ["img", "iframe", "noscript", "script"] ∧
    getModes (.list []) = ["img", "iframe", "noscript", "script"] ∧
    getModes (.scalar "image") = ["img"] ∧
    getModes (.list ["image"]) = ["img"] ∧
    (∀ m, (resolveModeWithoutScript m).contains "script" = false) ∧
    resolveModeWithoutScript (.scalar "script") = ["img", "iframe", "noscript"] ∧
    resolveModeWithoutScript (.list ["script"]) = ["img", "iframe", "noscript"] :=
  ⟨by decide, by decide, by decide, by decide, by decide, by decide,
   scriptfree_contains_script_false, by decide, by decide⟩
theorem getModes_scalar_eq (s : String) :
    getModes (.scalar s) =
      (if s == "" then SURFACE_KEYS
      else match modeMapLookup s with
        | some ms => ms
        | none => if SURFACE_KEYS.contains s then [s] else SURFACE_KEYS) := rfl

theorem getModes_list_eq (entries : List String) :
    getModes (.list entries) =
      jsSetFrom (if ((entries.map (fun entry =>
        match modeMapLookup entry with
        | some ms => ms
        | none => if SURFACE_KEYS.contains entry then [entry] else [])).flatten).isEmpty
      then SURFACE_KEYS
      else (entries.map (fun entry =>
        match modeMapLookup entry with
        | some ms => ms
        | none => if SURFACE_KEYS.contains entry then [entry] else [])).flatten) := rfl

/-- Own-key fragment of the surface selector: over the embedding with
own-property MODE_MAP lookup, getModes is never empty, duplicate-free and
ranges over the closed surface set, and an unrecognized scalar falls back
to the full default set. -/
theorem getModes_ownkey_invariants :
    (∀ m, (getModes m).isEmpty = false ∧ (getModes m).Nodup ∧
      (getModes m).all (fun x => SURFACE_KEYS.contains x) = true) ∧
    (∀ s, (s == "") = false → modeMapLookup s = none → SURFACE_KEYS.contains s = false →
      getModes (.scalar s) = SURFACE_KEYS) := by
  constructor
  · intro m
    cases m with
    | undef => exact ⟨by decide, by decide, by decide⟩
    | scalar s =>
      rw [getModes_scalar_eq]
      by_cases hs : (s == "") = true
      · rw [if_pos hs]
        exact ⟨by decide, by decide, by decide⟩
      · rw [if_neg hs]
        cases hl : modeMapLookup s with
        | some ms =>
          show ms.isEmpty = false ∧ ms.Nodup ∧ ms.all (fun x => SURFACE_KEYS.contains x) = true
          obtain ⟨hne, hnd, hsub⟩ := modeMapLookup_spec s ms hl
          refine ⟨?_, hnd, ?_⟩
          · rw [Bool.eq_false_iff]
            intro hc
            exact hne (List.isEmpty_iff.mp hc)
          · rw [List.all_eq_true]
            intro x hx
            simpa using hsub x hx
        | none =>
          show (if SURFACE_KEYS.contains s then [s] else SURFACE_KEYS).isEmpty = false ∧
            (if SURFACE_KEYS.contains s then [s] else SURFACE_KEYS).Nodup ∧
            ((if SURFACE_KEYS.contains s then [s] else SURFACE_KEYS).all
              (fun x => SURFACE_KEYS.contains x)) = true
          by_cases hc : SURFACE_KEYS.contains s = true
          · have hv : (if SURFACE_KEYS.contains s then [s] else SURFACE_KEYS) = [s] := if_pos hc
            rw [hv]
            exact ⟨rfl, by simp, by simpa using hc⟩
          · have hv : (if SURFACE_KEYS.contains s then [s] else SURFACE_KEYS) = SURFACE_KEYS :=
              if_neg hc
            rw [hv]
            exact ⟨by decide, by decide, by decide⟩
    | list entries =>
      rw [getModes_list_eq]
      set flattened := (entries.map (fun entry =>
        match modeMapLookup entry with
        | some ms => ms
        | none => if SURFACE_KEYS.contains entry then [entry] else [])).flatten with hfl
      have hsubfl : ∀ x ∈ flattened, x ∈ SURFACE_KEYS := by
        intro x hx
        rw [hfl] at hx
        rcases List.mem_flatten.mp hx with ⟨l, hl, hxl⟩
        rcases List.mem_map.mp hl with ⟨entry, _, hentry⟩
        subst hentry
        cases he : modeMapLookup entry with
        | some ms =>
          rw [he] at hxl
          exact (modeMapLookup_spec entry ms he).2.2 x hxl
        | none =>
          rw [he] at hxl
          by_cases hc : SURFACE_KEYS.contains entry = true
          · rw [if_pos hc] at hxl
            rw [List.mem_singleton.mp hxl]
            simpa using hc
          · rw [if_neg hc] at hxl
            simp at hxl
      set arg := if flattened.isEmpty then SURFACE_KEYS else flattened with harg
      have hargprops : arg ≠ [] ∧ ∀ x ∈ arg, x ∈ SURFACE_KEYS := by
        rw [harg]
        by_cases he : flattened.isEmpty = true
        · rw [if_pos he]
          exact ⟨by decide, by intro x hx; exact hx⟩
        · rw [if_neg he]
          refine ⟨?_, hsubfl⟩
          intro hnil
          exact he (by rw [hnil]; rfl)
      refine ⟨?_, nodup_foldl_jsSetAdd arg [] List.nodup_nil, ?_⟩
      · rw [Bool.eq_false_iff]
        intro hc
        rcases List.exists_mem_of_ne_nil arg hargprops.1 with ⟨x, hx⟩
        have hmem := (mem_foldl_jsSetAdd arg [] x).mpr (Or.inr hx)
        have hnil : jsSetFrom arg = [] := List.isEmpty_iff.mp hc
        unfold jsSetFrom at hnil
        rw [hnil] at hmem
        simp at hmem
      · rw [List.all_eq_true]
        intro x hx
        unfold jsSetFrom at hx
        rcases (mem_foldl_jsSetAdd arg [] x).mp hx with h | h
        · simp at h
        · simpa using hargprops.2 x h
  · intro s h1 h2 h3
    rw [getModes_scalar_eq, if_neg (by simp [h1]), h2]
    show (if SURFACE_KEYS.contains s then [s] else SURFACE_KEYS) = SURFACE_KEYS
    exact if_neg (by rw [h3]; exact Bool.false_ne_true)
/-- Claim C9: the URL builder returns the endpoint unchanged on an empty
mapping and otherwise appends the percent-encoded query after an ampersand
exactly when the endpoint already contains a question mark. -/
theorem buildPixelSrc_c9 :
    (∀ endpoint, buildPixelSrc endpoint [] = endpoint) ∧
    (∀ endpoint kv rest, buildPixelSrc endpoint (kv :: rest) =
      endpoint ++ (if strIncludes endpoint '?' then "&" else "?") ++
        buildQueryString (kv :: rest)) := by
  constructor
  · intro endpoint
    rfl
  · intro endpoint kv rest
    unfold buildPixelSrc
    rw [if_neg]
    simp only [buildQueryString, beq_iff_eq]
    exact serializeQueryPairs_ne_empty kv rest

/-- Claim C8: the normalizer is total: empty or absent input yields the
empty mapping and every emitted binding is the string conversion of an
input value. -/
theorem normalizePixelParams_total_c8 :
    normalizePixelParams none = [] ∧
    normalizePixelParams (some []) = [] ∧
    (∀ l kv, kv ∈ normalizePixelParams (some l) →
      ∃ v, (kv.1, v) ∈ l ∧ kv.2 = jsValToString v) := by
  refine ⟨rfl, rfl, ?_⟩
  intro l kv h
  unfold normalizePixelParams at h
  rcases List.mem_map.mp h with ⟨kv', hmem, heq⟩
  have hmem' := (List.mem_filter.mp hmem).1
  refine ⟨kv'.2, ?_, ?_⟩
  · rw [← heq]
    exact hmem'
  · rw [← heq]

theorem normalizePixelParams_total_c8_witness :
    (("k", "5") ∈ normalizePixelParams (some [("k", JSVal.num 5)])) ∧
    (∃ v, (("k", "5").1, v) ∈ [("k", JSVal.num 5)] ∧ ("k", "5").2 = jsValToString v) :=
  ⟨by decide, normalizePixelParams_total_c8.2.2 [("k", JSVal.num 5)] ("k", "5") (by decide)⟩

/-- Claim C6 counterexample: an empty-string value survives normalization,
so the output is not empty-value free. -/
theorem normalizePixelParams_c6_counterexample :
    normalizePixelParams (some [("a", JSVal.str "")]) ≠ [] ∧
    normalizePixelParams (some [("a", JSVal.str "")]) = [("a", "")] := by
  exact ⟨by decide, by decide⟩

/-- Claim C6 amended: after normalization every value is the string
conversion of a non-nullish input value (null and undefined entries are
removed entirely), but empty-string values are preserved, not dropped. -/
theorem normalizePixelParams_c6_amended :
    (∀ params kv, kv ∈ normalizePixelParams params →
      ∃ ps v, params = some ps ∧ (kv.1, v) ∈ ps ∧ jsNullish v = false ∧
        kv.2 = jsValToString v) ∧
    normalizePixelParams
        (some [("a", JSVal.str ""), ("b", JSVal.nullv), ("c", JSVal.undef), ("d", JSVal.str "x")]) =
      [("a", ""), ("d", "x")] := by
  constructor
  · intro params kv h
    cases params with
    | none => simp [normalizePixelParams] at h
    | some ps =>
      unfold normalizePixelParams at h
      rcases List.mem_map.mp h with ⟨kv', hmem, heq⟩
      obtain ⟨hmem', hpred⟩ := List.mem_filter.mp hmem
      refine ⟨ps, kv'.2, rfl, ?_, ?_, ?_⟩
      · rw [← heq]
        exact hmem'
      · rwa [Bool.not_eq_true'] at hpred
      · rw [← heq]
  · decide

theorem normalizePixelParams_c6_amended_witness :
    (("d", "x") ∈ normalizePixelParams (some [("d", JSVal.str "x")])) ∧
    (∃ ps v, (some [("d", JSVal.str "x")] : Option (List (String × JSVal))) = some ps ∧
      (("d", "x").1, v) ∈ ps ∧ jsNullish v = false ∧ ("d", "x").2 = jsValToString v) :=
  ⟨by decide,
   normalizePixelParams_c6_amended.1 (some [("d", JSVal.str "x")]) ("d", "x") (by decide)⟩

/-- Claim C7 counterexample: with mode image only the image surface is
active, but the component URL is not the claimed one, because the
component injects the component and source default parameters. -/
theorem bilditAIPixelImageSrc_c7_counterexample :
    getModes (.scalar "image") = ["img"] ∧
    bilditAIPixelImageSrc "https://ai-pixel.example/pixel.gif"
        (some [("campaign", JSVal.str "spring")]) ≠
      "https://ai-pixel.example/pixel.gif?campaign=spring&mode=img" := by
  exact ⟨by decide, by decide⟩

/-- Claim C7 amended: the rendered image-surface URL carries the caller
params in merge order, then the injected component and source defaults,
with mode img appended last. -/
theorem bilditAIPixelImageSrc_c7_amended :
    getModes (.scalar "image") = ["img"] ∧
    bilditAIPixelImageSrc "https://ai-pixel.example/pixel.gif"
        (some [("campaign", JSVal.str "spring")]) =
      "https://ai-pixel.example/pixel.gif?campaign=spring&component=react&source=bildit-ai-pixel&mode=img" := by
  exact ⟨by decide, by decide⟩
theorem identifyAIBot_some_eq (ua : String) :
    identifyAIBot (some ua) =
      (if ua == "" then none
      else AI_BOT_SIGNATURES.find? (fun sig => testPattern sig.pattern ua)) := rfl

/-- Claim C2: the classifier is total and deterministic: falsy or
unmatched input yields no match rather than an error; a user agent
containing GPTBot classifies as openai-gptbot even though it also matches
the later generic-ai signature; and in general a match is the
earliest-listed matching signature. -/
theorem identifyAIBot_c2 :
    identifyAIBot none = none ∧
    identifyAIBot (some "") = none ∧
    identifyAIBot (some "Mozilla/5.0 (ordinary browser)") = none ∧
    testPattern sigOpenaiGptbot.pattern "Mozilla/5.0 GPTBot ai-agent" = true ∧
    testPattern sigGenericAi.pattern "Mozilla/5.0 GPTBot ai-agent" = true ∧
    identifyAIBot (some "Mozilla/5.0 GPTBot ai-agent") = some sigOpenaiGptbot ∧
    (∀ ua sig, identifyAIBot (some ua) = some sig →
      testPattern sig.pattern ua = true ∧
      ∃ pre post, AI_BOT_SIGNATURES = pre ++ sig :: post ∧
        ∀ sig' ∈ pre, testPattern sig'.pattern ua = false) := by
  refine ⟨by decide, by decide, by decide, by decide, by decide, by decide, ?_⟩
  intro ua sig h
  rw [identifyAIBot_some_eq] at h
  by_cases hua : (ua == "") = true
  · rw [if_pos hua] at h
    exact absurd h (by simp)
  · rw [if_neg hua] at h
    obtain ⟨hp, pre, post, happ, hall⟩ := List.find?_eq_some.mp h
    refine ⟨hp, pre, post, happ, ?_⟩
    intro sig' hmem
    have := hall sig' hmem
    rwa [Bool.not_eq_true'] at this

theorem identifyAIBot_c2_witness :
    identifyAIBot (some "GPTBot") = some sigOpenaiGptbot ∧
    testPattern sigOpenaiGptbot.pattern "GPTBot" = true ∧
    (∃ pre post, AI_BOT_SIGNATURES = pre ++ sigOpenaiGptbot :: post ∧
      ∀ sig' ∈ pre, testPattern sig'.pattern "GPTBot" = false) := by
  refine ⟨by decide, ?_, ?_⟩
  · exact (identifyAIBot_c2.2.2.2.2.2.2 "GPTBot" sigOpenaiGptbot (by decide)).1
  · exact (identifyAIBot_c2.2.2.2.2.2.2 "GPTBot" sigOpenaiGptbot (by decide)).2
/-- Claim C1: the dispatcher skips with no network call and the
non-bot-user-agent reason exactly when requireBotMatch is true, force is
false and the classifier finds no match; with force true (and a working
fetch plus a parseable pixel URL) a network call is attempted regardless
of the classifier result. -/
theorem trackAIBotRequestForPixel_c1 (env : TrackEnv) (req : Option RequestLike)
    (opts : TrackOptions) :
    (opts.requireBotMatch = true → opts.force = false →
      identifyAIBot (resolveUserAgent req opts) = none →
      trackAIBotRequestForPixel env req opts =
        .ok ⟨nonBotSkipResult (resolveUserAgent req opts) (resolveReferer req opts),
             none, false⟩) ∧
    (∀ out, trackAIBotRequestForPixel env req opts = .ok out →
      out.result.reason = some "non-bot-user-agent" →
      opts.requireBotMatch = true ∧ opts.force = false ∧
        identifyAIBot (resolveUserAgent req opts) = none ∧ out.networkAttempted = false) ∧
    (opts.force = true → env.fetchAvailable = true →
      (buildPixelUrlWithParams opts.pixelUrl
        (dispatchParams env.now env.nonce req opts)).isOk = true →
      ∃ out, trackAIBotRequestForPixel env req opts = .ok out ∧
        out.networkAttempted = true) := by
  refine ⟨?_, ?_, ?_⟩
  · intro h1 h2 h3
    apply track_gate_true
    unfold nonBotGate
    rw [h1, h2, h3]
    rfl
  · intro out hout hreason
    by_cases hg : nonBotGate req opts = true
    · have hg' := hg
      unfold nonBotGate at hg'
      rw [Bool.and_eq_true, Bool.and_eq_true] at hg'
      obtain ⟨⟨hnf, hrbm⟩, hnone⟩ := hg'
      refine ⟨hrbm, ?_, ?_, ?_⟩
      · rwa [Bool.not_eq_true'] at hnf
      · exact Option.isNone_iff_eq_none.mp hnone
      · rw [track_gate_true env req opts hg] at hout
        rw [← Except.ok.inj hout]
    · exfalso
      rw [Bool.not_eq_true] at hg
      cases hb : buildPixelUrlWithParams opts.pixelUrl
          (dispatchParams env.now env.nonce req opts) with
      | error e =>
        have htrack : trackAIBotRequestForPixel env req opts = .error e := by
          unfold trackAIBotRequestForPixel
          rw [if_neg (by simp [hg]), hb]
        rw [htrack] at hout
        exact absurd hout (by simp)
      | ok u =>
        rw [track_gate_false env req opts u hg hb] at hout
        cases hf : env.fetchAvailable with
        | false =>
          rw [hf] at hout
          rw [if_pos rfl] at hout
          rw [← Except.ok.inj hout] at hreason
          simp [fetchUnavailableResult] at hreason
        | true =>
          rw [hf] at hout
          rw [if_neg (by simp)] at hout
          cases hr : env.fetchResult (urlToString u) with
          | ok resp =>
            rw [hr] at hout
            rw [← Except.ok.inj hout] at hreason
            simp [fetchSuccessResult] at hreason
          | error msg =>
            rw [hr] at hout
            rw [← Except.ok.inj hout] at hreason
            simp [fetchErrorResult] at hreason
  · intro hforce hfa hisok
    have hg : nonBotGate req opts = false := by
      unfold nonBotGate
      rw [hforce]
      rfl
    cases hb : buildPixelUrlWithParams opts.pixelUrl
        (dispatchParams env.now env.nonce req opts) with
    | error e =>
      rw [hb] at hisok
      simp [Except.isOk, Except.toBool] at hisok
    | ok u =>
      cases hr : env.fetchResult (urlToString u) with
      | ok resp =>
        refine ⟨⟨fetchSuccessResult (resolveUserAgent req opts) (resolveReferer req opts)
          ((identifyAIBot (resolveUserAgent req opts)).map (fun s => s.slug)) u resp,
          some u, true⟩, ?_, rfl⟩
        rw [track_gate_false env req opts u hg hb, if_neg (by simp [hfa]), hr]
      | error msg =>
        refine ⟨⟨fetchErrorResult (resolveUserAgent req opts) (resolveReferer req opts)
          ((identifyAIBot (resolveUserAgent req opts)).map (fun s => s.slug)) u msg,
          some u, true⟩, ?_, rfl⟩
        rw [track_gate_false env req opts u hg hb, if_neg (by simp [hfa]), hr]

theorem trackAIBotRequestForPixel_c1_witness :
    optsP5.requireBotMatch = true ∧ optsP5.force = false ∧
    identifyAIBot (resolveUserAgent none optsP5) = none ∧
    (trackAIBotRequestForPixel envFetchOk none optsP5 =
      .ok ⟨nonBotSkipResult (resolveUserAgent none optsP5) (resolveReferer none optsP5),
           none, false⟩) ∧
    optsP6.force = true ∧ envFetchOk.fetchAvailable = true ∧
    (∃ out, trackAIBotRequestForPixel envFetchOk none optsP6 = .ok out ∧
      out.networkAttempted = true) :=
  ⟨rfl, rfl, by decide, (trackAIBotRequestForPixel_c1 envFetchOk none optsP5).1 rfl rfl (by decide),
   rfl, rfl, (trackAIBotRequestForPixel_c1 envFetchOk none optsP6).2.2 rfl rfl (by decide)⟩
theorem dispatchedSite_track (env : TrackEnv) (req : Option RequestLike) (opts : TrackOptions)
    (hg : nonBotGate req opts = false) :
    dispatchedSite (trackAIBotRequestForPixel env req opts) =
      (match buildPixelUrlWithParams opts.pixelUrl (dispatchParams env.now env.nonce req opts) with
      | .ok u => spGet u.query "site"
      | .error _ => none) := by
  cases hb : buildPixelUrlWithParams opts.pixelUrl (dispatchParams env.now env.nonce req opts) with
  | error e =>
    unfold trackAIBotRequestForPixel
    rw [if_neg (by simp [hg]), hb]
    rfl
  | ok u =>
    rw [track_gate_false env req opts u hg hb]
    cases hf : env.fetchAvailable
    · simp [dispatchedSite]
    · cases hr : env.fetchResult (urlToString u) <;> simp [dispatchedSite]

/-- Claim C3 counterexample: the spec chain continues past a referer whose
parse fails, but the code commits to the referer branch: with a truthy
unparseable referer and a valid request URL, the spec chain yields the
request origin while the dispatched URL carries no site parameter. -/
theorem siteFallbackChain_c3_counterexample :
    siteFallbackChainSpec none (some "not a url") (some "https://req.example/path")
      none none none = some "https://req.example" ∧
    dispatchedSite (trackAIBotRequestForPixel envFetchOk (some reqUrlOnly) optsForceBadRef) =
      none := by
  exact ⟨by decide, by decide⟩

/-- Claim C3 amended: the site parameter resolution, as implemented: an
explicit site param wins; otherwise a present (truthy) referer commits the
resolution to its parsed origin, with site omitted when that parse fails;
only with no referer are the request URL origin, the forwarded headers
(scheme defaulting to https) and the raw Host header tried in order; with
none of them the site parameter is omitted.  In particular the P7
instance holds: with only the two forwarded headers the dispatched site
parameter is https://example.com. -/
theorem siteFallbackChain_c3_amended (now : Nat) (nonce : String) (fa : Bool)
    (fr : String → Except String FetchResponse) :
    dispatchedSite (trackAIBotRequestForPixel ⟨fa, fr, now, nonce⟩ none optsForceSiteParam) =
      some "https://param.example" ∧
    dispatchedSite (trackAIBotRequestForPixel ⟨fa, fr, now, nonce⟩ (some reqUrlOnly) optsForceRef) =
      some "https://ref.example" ∧
    dispatchedSite (trackAIBotRequestForPixel ⟨fa, fr, now, nonce⟩ (some reqUrlOnly)
      optsForceBadRef) = none ∧
    dispatchedSite (trackAIBotRequestForPixel ⟨fa, fr, now, nonce⟩ (some reqUrlOnly)
      optsForceXF) = some "https://req.example" ∧
    dispatchedSite (trackAIBotRequestForPixel ⟨fa, fr, now, nonce⟩ none optsForceXF) =
      some "https://example.com" ∧
    dispatchedSite (trackAIBotRequestForPixel ⟨fa, fr, now, nonce⟩ none optsForceXFHostOnly) =
      some "https://example.com" ∧
    dispatchedSite (trackAIBotRequestForPixel ⟨fa, fr, now, nonce⟩ none optsForceHost) =
      some "https://hostonly.example" ∧
    dispatchedSite (trackAIBotRequestForPixel ⟨fa, fr, now, nonce⟩ none optsForce) = none := by
  refine ⟨?_, ?_, ?_, ?_, ?_, ?_, ?_, ?_⟩ <;>
    first
    | (rw [dispatchedSite_track _ _ _ (by decide)]; rfl)
/-- Claim C4: with a parseable pixel URL the dispatcher never raises: it
returns a structured outcome that is exactly one of the closed variants
(triggered success, skipped, errored); a fetch-unavailable skip still
echoes the constructed URL and attempts no network call; a network
exception yields triggered false with the error captured as a string; a
successful fetch yields triggered true with the response status and ok. -/
theorem trackAIBotRequestForPixel_c4 (env : TrackEnv) (req : Option RequestLike)
    (opts : TrackOptions) (h : (parseURL opts.pixelUrl).isSome = true) :
    (∀ r : TrackResult,
      ¬(isTriggeredSuccess r ∧ isSkippedOutcome r) ∧
      ¬(isTriggeredSuccess r ∧ isErroredOutcome r) ∧
      ¬(isSkippedOutcome r ∧ isErroredOutcome r)) ∧
    dispatcherClosedVariants env req opts := by
  constructor
  · intro r
    refine ⟨?_, ?_, ?_⟩
    · rintro ⟨⟨ht, _⟩, ⟨hf, _⟩⟩
      rw [ht] at hf
      exact absurd hf (by decide)
    · rintro ⟨⟨ht, _⟩, ⟨hf, _⟩⟩
      rw [ht] at hf
      exact absurd hf (by decide)
    · rintro ⟨⟨_, hs, _⟩, ⟨_, _, hs2, _⟩⟩
      rw [hs] at hs2
      exact absurd hs2 (by simp)
  · unfold dispatcherClosedVariants
    by_cases hg : nonBotGate req opts = true
    · refine ⟨⟨nonBotSkipResult (resolveUserAgent req opts) (resolveReferer req opts),
        none, false⟩, track_gate_true env req opts hg, ?_, ?_, ?_⟩
      · exact Or.inr (Or.inl ⟨rfl, rfl, Or.inl rfl, rfl, rfl, rfl⟩)
      · intro hre
        exact absurd hre (by simp [nonBotSkipResult])
      · intro u hu
        exact absurd hu (by simp)
    · rw [Bool.not_eq_true] at hg
      obtain ⟨u0, hu0⟩ := Option.isSome_iff_exists.mp h
      obtain ⟨u, hb⟩ : ∃ u, buildPixelUrlWithParams opts.pixelUrl
          (dispatchParams env.now env.nonce req opts) = .ok u := by
        unfold buildPixelUrlWithParams
        rw [hu0]
        exact ⟨_, rfl⟩
      cases hf : env.fetchAvailable with
      | false =>
        refine ⟨⟨fetchUnavailableResult (resolveUserAgent req opts) (resolveReferer req opts)
          ((identifyAIBot (resolveUserAgent req opts)).map (fun s => s.slug)) u,
          some u, false⟩, ?_, ?_, ?_, ?_⟩
        · rw [track_gate_false env req opts u hg hb, hf, if_pos rfl]
        · exact Or.inr (Or.inl ⟨rfl, rfl, Or.inr rfl, rfl, rfl, rfl⟩)
        · intro _
          exact ⟨rfl, rfl⟩
        · intro u' hu' hfa
          exact absurd hfa (by decide)
      | true =>
        cases hr : env.fetchResult (urlToString u) with
        | ok resp =>
          refine ⟨⟨fetchSuccessResult (resolveUserAgent req opts) (resolveReferer req opts)
            ((identifyAIBot (resolveUserAgent req opts)).map (fun s => s.slug)) u resp,
            some u, true⟩, ?_, ?_, ?_, ?_⟩
          · rw [track_gate_false env req opts u hg hb, hf, if_neg (by decide), hr]
          · exact Or.inl ⟨rfl, rfl, rfl, rfl, rfl, rfl⟩
          · intro hre
            exact absurd hre (by simp [fetchSuccessResult])
          · intro u' hu' _
            have huu : u = u' := by
              simpa using hu'
            subst huu
            refine ⟨?_, ?_⟩
            · intro msg hmsg
              rw [hr] at hmsg
              exact absurd hmsg (by simp)
            · intro resp' hresp
              rw [hr] at hresp
              rw [← Except.ok.inj hresp]
              exact ⟨rfl, rfl, rfl⟩
        | error msg =>
          refine ⟨⟨fetchErrorResult (resolveUserAgent req opts) (resolveReferer req opts)
            ((identifyAIBot (resolveUserAgent req opts)).map (fun s => s.slug)) u msg,
            some u, true⟩, ?_, ?_, ?_, ?_⟩
          · rw [track_gate_false env req opts u hg hb, hf, if_neg (by decide), hr]
          · exact Or.inr (Or.inr ⟨rfl, rfl, rfl, rfl, rfl, rfl⟩)
          · intro hre
            exact absurd hre (by simp [fetchErrorResult])
          · intro u' hu' _
            have huu : u = u' := by
              simpa using hu'
            subst huu
            refine ⟨?_, ?_⟩
            · intro msg' hmsg
              rw [hr] at hmsg
              rw [← Except.error.inj hmsg]
              exact ⟨rfl, rfl⟩
            · intro resp' hresp
              rw [hr] at hresp
              exact absurd hresp (by simp)

theorem trackAIBotRequestForPixel_c4_witness :
    (parseURL optsP6.pixelUrl).isSome = true ∧
    ((∀ r : TrackResult,
      ¬(isTriggeredSuccess r ∧ isSkippedOutcome r) ∧
      ¬(isTriggeredSuccess r ∧ isErroredOutcome r) ∧
      ¬(isSkippedOutcome r ∧ isErroredOutcome r)) ∧
    dispatcherClosedVariants envFetchOk none optsP6) :=
  ⟨by decide, trackAIBotRequestForPixel_c4 envFetchOk none optsP6 (by decide)⟩
theorem contains_map_str (l : List String) (x : String) :
    (l.map SurfaceEntry.str).contains (SurfaceEntry.str x) = l.contains x := by
  by_cases h : x ∈ l
  · have h1 : SurfaceEntry.str x ∈ l.map SurfaceEntry.str := List.mem_map_of_mem _ h
    simp [h, h1]
  · have h1 : SurfaceEntry.str x ∉ l.map SurfaceEntry.str := by
      intro hc
      rcases List.mem_map.mp hc with ⟨y, hy, he⟩
      rw [SurfaceEntry.str.inj he] at hy
      exact h hy
    simp [h, h1]

theorem jsSetAddEntry_map_str (acc : List String) (x : String) :
    jsSetAddEntry (acc.map SurfaceEntry.str) (SurfaceEntry.str x) =
      (jsSetAdd acc x).map SurfaceEntry.str := by
  unfold jsSetAddEntry jsSetAdd
  rw [contains_map_str]
  by_cases h : acc.contains x = true
  · rw [if_pos h, if_pos h]
  · rw [if_neg h, if_neg h]
    simp

theorem foldl_jsSetAddEntry_map_str (l : List String) :
    ∀ acc : List String,
      (l.map SurfaceEntry.str).foldl jsSetAddEntry (acc.map SurfaceEntry.str) =
        (l.foldl jsSetAdd acc).map SurfaceEntry.str := by
  induction l with
  | nil => intro acc; rfl
  | cons y ys ih =>
    intro acc
    simp only [List.map_cons, List.foldl_cons]
    rw [jsSetAddEntry_map_str]
    exact ih (jsSetAdd acc y)

theorem isEmpty_map_eq {α β : Type} (f : α → β) (l : List α) :
    (l.map f).isEmpty = l.isEmpty := by
  cases l <;> rfl

theorem modeMapProp_of_avoidsProto (entry : String)
    (h : OBJECT_PROTOTYPE_KEYS.contains entry = false) :
    modeMapProp entry =
      (match modeMapLookup entry with
      | some ms => ModeMapProp.list ms
      | none => ModeMapProp.missing) := by
  unfold modeMapProp
  cases hl : modeMapLookup entry with
  | some ms => rfl
  | none =>
    rw [h]
    rfl

theorem getModesJS_coincidence (m : ModeInput) (h : modeInputAvoidsProto m = true) :
    getModesJS m = .arr ((getModes m).map SurfaceEntry.str) := by
  cases m with
  | undef => rfl
  | scalar s =>
    have hs : OBJECT_PROTOTYPE_KEYS.contains s = false := by
      have := h
      unfold modeInputAvoidsProto at this
      rwa [Bool.not_eq_true'] at this
    show (if s == "" then GetModesResult.arr (SURFACE_KEYS.map SurfaceEntry.str)
      else match modeMapProp s with
        | .list ms => .arr (ms.map SurfaceEntry.str)
        | .inherited => .inheritedMember s
        | .missing =>
          if SURFACE_KEYS.contains s then .arr [SurfaceEntry.str s]
          else .arr (SURFACE_KEYS.map SurfaceEntry.str)) = _
    rw [getModes_scalar_eq]
    by_cases he : (s == "") = true
    · rw [if_pos he, if_pos he]
    · rw [if_neg he, if_neg he, modeMapProp_of_avoidsProto s hs]
      cases hl : modeMapLookup s with
      | some ms => rfl
      | none =>
        by_cases hc : SURFACE_KEYS.contains s = true
        · rw [if_pos hc, if_pos hc]
          rfl
        · rw [if_neg hc, if_neg hc]
  | list entries =>
    have hall : ∀ e ∈ entries, OBJECT_PROTOTYPE_KEYS.contains e = false := by
      intro e he
      have := (List.all_eq_true.mp h) e he
      rwa [Bool.not_eq_true'] at this
    have hpieces : entries.map (fun entry =>
        match modeMapProp entry with
        | ModeMapProp.list ms => ms.map SurfaceEntry.str
        | ModeMapProp.inherited => [SurfaceEntry.protoMember entry]
        | ModeMapProp.missing =>
          if SURFACE_KEYS.contains entry then [SurfaceEntry.str entry] else []) =
      (entries.map (fun entry =>
        match modeMapLookup entry with
        | some ms => ms
        | none => if SURFACE_KEYS.contains entry then [entry] else [])).map
        (List.map SurfaceEntry.str) := by
      rw [List.map_map]
      apply List.map_congr_left
      intro e he
      show (match modeMapProp e with
        | ModeMapProp.list ms => ms.map SurfaceEntry.str
        | ModeMapProp.inherited => [SurfaceEntry.protoMember e]
        | ModeMapProp.missing =>
          if SURFACE_KEYS.contains e then [SurfaceEntry.str e] else []) =
        (match modeMapLookup e with
        | some ms => ms
        | none => if SURFACE_KEYS.contains e then [e] else []).map SurfaceEntry.str
      rw [modeMapProp_of_avoidsProto e (hall e he)]
      cases hl : modeMapLookup e with
      | some ms => rfl
      | none =>
        by_cases hc : SURFACE_KEYS.contains e = true
        · rw [if_pos hc, if_pos hc]
          rfl
        · rw [if_neg hc, if_neg hc]
          rfl
    have hflat : (entries.map (fun entry =>
        match modeMapProp entry with
        | ModeMapProp.list ms => ms.map SurfaceEntry.str
        | ModeMapProp.inherited => [SurfaceEntry.protoMember entry]
        | ModeMapProp.missing =>
          if SURFACE_KEYS.contains entry then [SurfaceEntry.str entry] else [])).flatten =
      ((entries.map (fun entry =>
        match modeMapLookup entry with
        | some ms => ms
        | none => if SURFACE_KEYS.contains entry then [entry] else [])).flatten).map
        SurfaceEntry.str := by
      rw [hpieces, List.map_flatten]
    show GetModesResult.arr (jsSetFromEntries _) = _
    rw [getModes_list_eq]
    rw [hflat]
    unfold jsSetFromEntries jsSetFrom
    by_cases he : ((entries.map (fun entry =>
        match modeMapLookup entry with
        | some ms => ms
        | none => if SURFACE_KEYS.contains entry then [entry] else [])).flatten).isEmpty = true
    · rw [isEmpty_map_eq, if_pos he, if_pos he]
      rw [show ([] : List SurfaceEntry) = ([] : List String).map SurfaceEntry.str from rfl,
        foldl_jsSetAddEntry_map_str]
    · rw [isEmpty_map_eq, if_neg he, if_neg he]
      rw [show ([] : List SurfaceEntry) = ([] : List String).map SurfaceEntry.str from rfl,
        foldl_jsSetAddEntry_map_str]

/-- Claim C10 counterexample: the token toString names an inherited
Object.prototype member, so MODE_MAP lookup is truthy and the selector
returns the inherited member itself instead of a surface list or the
default-set fallback; in a list it survives as a non-surface element. -/
theorem getModesJS_c10_counterexample :
    getModesJS (.scalar "toString") = .inheritedMember "toString" ∧
    getModesJS (.scalar "toString") ≠ .arr (SURFACE_KEYS.map SurfaceEntry.str) ∧
    getModesJS (.list ["toString"]) = .arr [SurfaceEntry.protoMember "toString"] := by
  exact ⟨by decide, by decide, by decide⟩

/-- Claim C10 amended: for every input whose tokens name no inherited
Object.prototype property, the prototype-faithful selector returns an
array that coincides with the own-key embedding, which is non-empty,
duplicate-free and ranges over the closed surface set; an unrecognized
scalar (neither an own MODE_MAP key, an inherited prototype member, nor a
surface token) falls back to the full default set.  Tokens naming
inherited prototype members instead surface the inherited member, as the
counterexample shows. -/
theorem getModesJS_c10_amended :
    (∀ m, modeInputAvoidsProto m = true →
      getModesJS m = .arr ((getModes m).map SurfaceEntry.str) ∧
      (getModes m).isEmpty = false ∧ (getModes m).Nodup ∧
      (getModes m).all (fun x => SURFACE_KEYS.contains x) = true) ∧
    (∀ s, (s == "") = false → modeMapProp s = .missing → SURFACE_KEYS.contains s = false →
      getModes (.scalar s) = SURFACE_KEYS ∧
      getModesJS (.scalar s) = .arr (SURFACE_KEYS.map SurfaceEntry.str)) := by
  constructor
  · intro m hm
    obtain ⟨h1, h2, h3⟩ := getModes_ownkey_invariants.1 m
    exact ⟨getModesJS_coincidence m hm, h1, h2, h3⟩
  · intro s h1 h2 h3
    obtain ⟨hlk, hpr⟩ : modeMapLookup s = none ∧
        OBJECT_PROTOTYPE_KEYS.contains s = false := by
      unfold modeMapProp at h2
      cases hl : modeMapLookup s with
      | some ms =>
        rw [hl] at h2
        exact absurd h2 (by simp)
      | none =>
        rw [hl] at h2
        by_cases hc : OBJECT_PROTOTYPE_KEYS.contains s = true
        · rw [if_pos hc] at h2
          exact absurd h2 (by simp)
        · refine ⟨rfl, ?_⟩
          rwa [Bool.not_eq_true] at hc
    refine ⟨getModes_ownkey_invariants.2 s h1 hlk h3, ?_⟩
    have hm : modeInputAvoidsProto (.scalar s) = true := by
      show (!OBJECT_PROTOTYPE_KEYS.contains s) = true
      rw [hpr]
      rfl
    rw [getModesJS_coincidence (.scalar s) hm, getModes_ownkey_invariants.2 s h1 hlk h3]

theorem getModesJS_c10_amended_witness :
    (modeInputAvoidsProto (.list ["image", "bogus"]) = true ∧
      (getModesJS (.list ["image", "bogus"]) =
        .arr ((getModes (.list ["image", "bogus"])).map SurfaceEntry.str) ∧
      (getModes (.list ["image", "bogus"])).isEmpty = false ∧
      (getModes (.list ["image", "bogus"])).Nodup ∧
      (getModes (.list ["image", "bogus"])).all (fun x => SURFACE_KEYS.contains x) = true)) ∧
    ((("banana" : String) == "") = false ∧ modeMapProp "banana" = ModeMapProp.missing ∧
      SURFACE_KEYS.contains "banana" = false ∧
      (getModes (.scalar "banana") = SURFACE_KEYS ∧
        getModesJS (.scalar "banana") = .arr (SURFACE_KEYS.map SurfaceEntry.str))) :=
  ⟨⟨by decide, getModesJS_c10_amended.1 (.list ["image", "bogus"]) (by decide)⟩,
   ⟨by decide, by decide, by decide,
    getModesJS_c10_amended.2 "banana" (by decide) (by decide) (by decide)⟩⟩
